import Mathlib

/-!
Verification of the grid-search parameter iterator of `project_utils.py`
(`GridSearch`, `load_configfile`) against its natural-language specification.

The Python code is shallowly embedded:

* Python values occurring in parameter/grid dictionaries become the inductive
  type `Value`; insertion-ordered Python dicts become association lists
  (`Dict`), with `dset` modelling `d[k] = v` (update the value in place if the
  key exists, otherwise append) and `dget` modelling lookup.
* `GridSearch.__init__` keeps `parameters` and a grid mapping axis keys to
  candidate lists; the enumeration state after `__iter__` (fields `__i` and
  `__idx`) becomes `IterState`.  Since a Python dict cannot repeat keys, the
  index dict `__idx` (same keys as the grid, in the same order) is represented
  as a list of integers parallel to the grid's axes.
* `GridSearch.__next__` becomes `step`: `bump` models the index-increment
  loop with carry, `applyAxes` models the value-application loop.  Normal
  `StopIteration` becomes `StepResult.stop`, and the `IndexError` that Python
  raises when indexing an empty candidate list becomes `StepResult.err`
  (carrying the partially updated parameter dict, exactly as the mutation
  leaves it).
* File loading (`load_configfile`) and `__init__`'s argument dispatch are
  embedded in a second layer (`Env`, `Arg`, `mkGridSearch`) further below.
-/

/-- Python values stored in parameter dictionaries: numbers, strings, nested
dicts (parameter groups) and lists.  The only shape `__next__` inspects is
`isinstance(v, dict)`, so one constructor per relevant shape suffices. -/
inductive Value where
  | int : Int → Value
  | str : String → Value
  | dict : List (String × Value) → Value
  | vlist : List Value → Value

/-- An insertion-ordered Python dict with string keys. -/
abbrev Dict := List (String × Value)

/-- Python `d[k]` lookup (as an `Option`): the value of the first entry whose
key equals `k` (keys are unique in a real dict). -/
def dget : Dict → String → Option Value
  | [], _ => none
  | e :: rest, k => if e.1 = k then some e.2 else dget rest k

/-- Python `d[k] = v`: replace the value of an existing key in place (keeping
its position), otherwise append the new entry at the end. -/
def dset : Dict → String → Value → Dict
  | [], k, v => [(k, v)]
  | e :: rest, k, v => if e.1 = k then (k, v) :: rest else e :: dset rest k v

/-- Python `k in d`. -/
def dcontains (d : Dict) (k : String) : Bool :=
  (dget d k).isSome

/-- The effective index for Python list indexing: a negative index counts
from the end of the list. -/
def pyIndex (i : Int) (n : Nat) : Int :=
  if i < 0 then i + n else i

/-- Python list indexing `l[i]` with its negative-index wrap-around; `none`
models the `IndexError` raised on an out-of-range index. -/
def pyGet {α : Type} (l : List α) (i : Int) : Option α :=
  if h : 0 ≤ pyIndex i l.length ∧ pyIndex i l.length < (l.length : Int) then
    some (l.get ⟨(pyIndex i l.length).toNat, by omega⟩)
  else none

/-- The state of a constructed `GridSearch` object: the (mutable) parameter
dict and the grid, whose axes map a key to the list of candidate values.
`self.__lengths` is determined by the grid (the length of each candidate
list), so it is not stored separately. -/
structure GridSearch where
  parameters : Dict
  grid : List (String × List Value)

/-- Python `len(gs)`, i.e. `GridSearch.__len__`:
`math.prod(self.__lengths.values())` where `__lengths[k] = len(grid[k])`. -/
def gsLen (g : GridSearch) : Nat :=
  (g.grid.map (fun ax => ax.2.length)).prod

/-- The enumeration state after `GridSearch.__iter__`: the object fields plus
the position counter `__i` and the per-axis index dict `__idx` (a list
parallel to the grid's axes). -/
structure IterState where
  parameters : Dict
  grid : List (String × List Value)
  i : Int
  idx : List Int

/-- `GridSearch.__iter__`: set `__i = -1`, set every axis index to `0` and the
first-declared axis to `-1`.  `list(self.grid.keys())[0]` raises `IndexError`
when the grid has no axes, modelled by `none`. -/
def iterStart (g : GridSearch) : Option IterState :=
  match g.grid with
  | [] => none
  | _ :: rest =>
      some { parameters := g.parameters, grid := g.grid, i := -1,
             idx := (-1 : Int) :: List.replicate rest.length 0 }

/-- The index-increment loop of `__next__`: walk the indices in axis order,
increment the current one; on reaching that axis's length reset it to `0` and
carry on to the next axis, otherwise stop.  Returns the updated index list and
the flag `t` (`true` when every axis wrapped, i.e. `StopIteration`). -/
def bump : List Int → List Nat → List Int × Bool
  | i :: is, len :: lens =>
      if i + 1 = (len : Int) then ((0 : Int) :: (bump is lens).1, (bump is lens).2)
      else ((i + 1) :: is, false)
  | _, _ => ([], true)

/-- Result of the value-application loop of `__next__`: `ok` with the updated
parameter dict, or `err` (Python `IndexError` while indexing a candidate
list) carrying the parameters as mutated so far. -/
inductive ApplyResult where
  | ok : Dict → ApplyResult
  | err : Dict → ApplyResult

/-- The value-application loop of `__next__`: for every axis `k` (in
declaration order) fetch `v = grid[k][idx[k]]`; if `v` is a dict (a parameter
group) assign each of its entries into the parameters, otherwise assign `v`
under the axis key itself. -/
def applyAxes : Dict → List (String × List Value) → List Int → ApplyResult
  | p, [], _ => ApplyResult.ok p
  | p, _ :: _, [] => ApplyResult.err p
  | p, (k, cands) :: rest, i :: is =>
      match pyGet cands i with
      | none => ApplyResult.err p
      | some (Value.dict es) =>
          applyAxes (es.foldl (fun d e => dset d e.1 e.2) p) rest is
      | some v => applyAxes (dset p k v) rest is

/-- Result of one `__next__` call: a yielded `(parameters, position)` pair
plus the successor state, normal termination (`StopIteration`), or an
`IndexError` (possible when a candidate list is empty). -/
inductive StepResult where
  | yielded : Dict → Int → IterState → StepResult
  | stop : IterState → StepResult
  | err : IterState → StepResult

/-- `GridSearch.__next__`: bump the indices; if every axis wrapped raise
`StopIteration`; otherwise re-apply every axis's current candidate value and
return `(self.parameters, self.__i)` after incrementing `__i`. -/
def step (s : IterState) : StepResult :=
  match bump s.idx (s.grid.map (fun ax => ax.2.length)) with
  | (idx2, true) => StepResult.stop { s with idx := idx2 }
  | (idx2, false) =>
      match applyAxes s.parameters s.grid idx2 with
      | ApplyResult.err p => StepResult.err { s with parameters := p, idx := idx2 }
      | ApplyResult.ok p =>
          StepResult.yielded p (s.i + 1)
            { s with parameters := p, idx := idx2, i := s.i + 1 }

/-- Iterate `step` collecting the yielded `(parameters, position)` pairs, for
at most `fuel` calls; also returns the final state.  `fuel = gsLen g + 1`
always suffices for a full enumeration. -/
def runFuel : Nat → IterState → List (Dict × Int) × IterState
  | 0, s => ([], s)
  | fuel + 1, s =>
      match step s with
      | StepResult.yielded p i s2 =>
          let r := runFuel fuel s2
          ((p, i) :: r.1, r.2)
      | StepResult.stop s2 => ([], s2)
      | StepResult.err s2 => ([], s2)

/-- Full enumeration of a `GridSearch`: `iter(gs)` followed by `next` until it
stops yielding; `none` when `__iter__` itself raises (zero-axis grid). -/
def runGS (g : GridSearch) : Option (List (Dict × Int)) :=
  match iterStart g with
  | none => none
  | some s => some (runFuel (gsLen g + 1) s).1

/-- Re-invoking `__iter__` on an already-started iterator: the object's
current `parameters` and `grid` are kept, `__i` and `__idx` are rebuilt from
scratch. -/
def restartIter (s : IterState) : Option IterState :=
  iterStart { parameters := s.parameters, grid := s.grid }

/-- Mixed-radix digits of `m` for the per-axis bases `Ls`, least significant
digit first: exactly the value the index dict `__idx` holds after the
enumeration step at position `m` (when every base is positive). -/
def digits : List Nat → Nat → List Int
  | [], _ => []
  | len :: lens, m => ((m % len : Nat) : Int) :: digits lens (m / len)

/-- The ordered sequence of `(key, value)` assignments one `__next__` call
performs into the parameter dict (axes in declaration order; a dict-valued
candidate contributes all of its entries, any other candidate contributes a
single assignment under the axis key). -/
def stepWrites : List (String × List Value) → List Int → List (String × Value)
  | (k, cands) :: rest, i :: is =>
      (match pyGet cands i with
       | some (Value.dict es) => es
       | some v => [(k, v)]
       | none => []) ++ stepWrites rest is
  | _, _ => []

/-- The value of the last assignment to key `k` in an assignment sequence
(`none` when `k` is never assigned). -/
def lastWrite : List (String × Value) → String → Option Value
  | [], _ => none
  | e :: rest, k =>
      match lastWrite rest k with
      | some v => some v
      | none => if e.1 = k then some e.2 else none

/-- Whether the grid can ever write the key `k`: `k` is an axis key, or a key
of some dict-valued (group) candidate of some axis. -/
def touches (grid : List (String × List Value)) (k : String) : Bool :=
  grid.any (fun ax =>
    ax.1 == k || ax.2.any (fun v =>
      match v with
      | Value.dict es => es.any (fun e => e.1 == k)
      | _ => false))

/-- Errors `GridSearch.__init__` can raise.  In Python, `unrecognizedSource`
and `configFormat` are both `RuntimeError`s distinguished by their message
(see `PyError.message`); `typeError` is the `TypeError` raised by `len` on an
unsized grid value in the `__lengths` comprehension. -/
inductive PyError where
  | unrecognizedSource : String → PyError
  | configFormat : String → PyError
  | typeError : PyError

/-- The message of each error, as the Python code formats it. -/
def PyError.message : PyError → String
  | PyError.unrecognizedSource t => "Unrecognized grid type: " ++ t
  | PyError.configFormat path => "Unknown config file type: " ++ path
  | PyError.typeError => "object has no len()"

/-- A constructor argument of `GridSearch`: a string (file path), a dict, or
a value of any other type (`other` carries `str(type(x))` of that value, the
only thing the code ever uses it for). -/
inductive Arg where
  | str : String → Arg
  | dict : Dict → Arg
  | other : String → Arg

/-- Python `str(type(x))` for a constructor argument. -/
def typeStr : Arg → String
  | Arg.str _ => "<class str>"
  | Arg.dict _ => "<class dict>"
  | Arg.other t => t

/-- Whether an argument is neither a mapping nor a string. -/
def isOtherArg : Arg → Bool
  | Arg.other _ => true
  | _ => false

/-- The external collaborators of `load_configfile`: the file system (path to
file contents) and the `json.loads` / `yaml.load` parsers, abstracted as
total functions producing a parsed mapping. -/
structure Env where
  fs : String → String
  jsonParse : String → Dict
  yamlParse : String → Dict

/-- Remove a `//`-style comment from one line: everything from the first
`//` to the end of the line. -/
def cutComment (line : String) : String :=
  (line.splitOn ("//")).headD ("")

/-- The effect of `re.sub("//.*", "", text, flags=re.MULTILINE)`: on each
line (`.` does not match a newline), remove everything from the first `//`
to the end of that line. -/
def stripLineComments (s : String) : String :=
  String.intercalate ("\n") ((s.splitOn ("\n")).map cutComment)

/-- Python `s.endswith(suffix)`. -/
def pyEndsWith (s suf : String) : Bool :=
  suf.data.isSuffixOf s.data

/-- Whether a config file path has one of the two recognized extensions. -/
def goodExt (path : String) : Bool :=
  pyEndsWith path (".json") || pyEndsWith path (".yaml")

/-- `load_configfile(path)`: parse a `.json` file as JSON after stripping
`//`-style line comments, parse a `.yaml` file as YAML, and raise
`RuntimeError(\x27Unknown config file type: \x27 + str(path))` otherwise. -/
def loadConfigfile (env : Env) (path : String) : Except PyError Dict :=
  if pyEndsWith path (".json") then
    Except.ok (env.jsonParse (stripLineComments (env.fs path)))
  else if pyEndsWith path (".yaml") then
    Except.ok (env.yamlParse (env.fs path))
  else
    Except.error (PyError.configFormat path)

/-- Python `len(v)`: defined for strings, dicts and lists, a `TypeError`
(`none`) for other values. -/
def pyLen : Value → Option Nat
  | Value.str s => some s.length
  | Value.dict d => some d.length
  | Value.vlist l => some l.length
  | Value.int _ => none

/-- The `__lengths = {k: len(self.grid[k]) for k in self.grid.keys()}`
comprehension: the length of each grid value in key order, raising
`TypeError` on the first unsized value. -/
def computeLengths : Dict → Except PyError (List (String × Nat))
  | [] => Except.ok []
  | (k, v) :: rest =>
      match pyLen v with
      | none => Except.error PyError.typeError
      | some n =>
          match computeLengths rest with
          | Except.error e => Except.error e
          | Except.ok l => Except.ok ((k, n) :: l)

/-- The raw result of `GridSearch.__init__`: resolved parameter dict,
resolved grid dict, and the `__lengths` dict. -/
structure GridSearchRaw where
  parameters : Dict
  grid : Dict
  lengths : List (String × Nat)

/-- Whether an argument resolves without error in this model: a dict, or a
string with a recognized extension. -/
def resolves : Arg → Bool
  | Arg.str path => goodExt path
  | Arg.dict _ => true
  | Arg.other _ => false

/-- The first `if/elif/else` block of `GridSearch.__init__`: load
`parameters` if a string, keep it if a dict, otherwise raise
`RuntimeError` with message `Unrecognized grid type: ` + `str(type(grid))` —
note the message is built from `grid` even in this `parameters` branch. -/
def resolveParams (env : Env) (parameters grid : Arg) : Except PyError Dict :=
  match parameters with
  | Arg.str path => loadConfigfile env path
  | Arg.dict d => Except.ok d
  | Arg.other _ => Except.error (PyError.unrecognizedSource (typeStr grid))

/-- The second `if/elif/else` block of `__init__`, resolving the `grid`
argument; its error message is also built from `str(type(grid))`. -/
def resolveGrid (env : Env) (grid : Arg) : Except PyError Dict :=
  match grid with
  | Arg.str path => loadConfigfile env path
  | Arg.dict d => Except.ok d
  | Arg.other _ => Except.error (PyError.unrecognizedSource (typeStr grid))

/-- The whole of `__init__`: resolve `parameters`, then `grid`, then compute
`__lengths`; the first error aborts construction. -/
def mkGridSearch (env : Env) (parameters grid : Arg) : Except PyError GridSearchRaw :=
  match resolveParams env parameters grid with
  | Except.error e => Except.error e
  | Except.ok ps =>
      match resolveGrid env grid with
      | Except.error e => Except.error e
      | Except.ok gd =>
          match computeLengths gd with
          | Except.error e => Except.error e
          | Except.ok ls => Except.ok { parameters := ps, grid := gd, lengths := ls }

/-- A concrete environment used in closed witness statements. -/
def env0 : Env :=
  { fs := fun _ => ("x: 1 // c"),
    jsonParse := fun s => [(("j"), Value.str s)],
    yamlParse := fun s => [(("y"), Value.str s)] }

/-- Concrete instance for claim C5: base parameters `{x: 0}` and a single
group axis `g` whose two candidates write different key sets (`{x: 1}` and
`{y: 2}`). -/
def c5g : GridSearch :=
  { parameters := [(("x"), Value.int 0)],
    grid := [(("g"), [Value.dict [(("x"), Value.int 1)],
                      Value.dict [(("y"), Value.int 2)]])] }

/-- The full first enumeration of `c5g` (pairs yielded, and the final
state of the iterator object after `StopIteration`). -/
def c5run1 : List (Dict × Int) × IterState :=
  match iterStart c5g with
  | some s => runFuel 3 s
  | none => ([], { parameters := [], grid := [], i := 0, idx := [] })

/-- The parameter-dict snapshots of the first (fresh) enumeration of `c5g`. -/
def c5freshSnaps : List Dict :=
  c5run1.1.map (fun pr => pr.1)

/-- The parameter-dict snapshots produced after re-invoking `__iter__` on the
already-exhausted iterator and enumerating again. -/
def c5restartSnaps : List Dict :=
  match restartIter c5run1.2 with
  | some s => (runFuel 3 s).1.map (fun pr => pr.1)
  | none => []

/-- The concrete scenario of claim C2: base parameters `{a: 0, b: 0}` and grid
`{a: [1, 2], b: [10, 20]}`. -/
def c2g : GridSearch :=
  { parameters := [(("a"), Value.int 0), (("b"), Value.int 0)],
    grid := [(("a"), [Value.int 1, Value.int 2]),
             (("b"), [Value.int 10, Value.int 20])] }

/-- C2: on base parameters `{a: 0, b: 0}` with grid `{a: [1,2], b: [10,20]}`
enumeration yields exactly 4 combinations in mixed-radix odometer order with
the first-declared axis `a` varying fastest — `(a=1,b=10)`, `(a=2,b=10)`,
`(a=1,b=20)`, `(a=2,b=20)` — with positions 0, 1, 2, 3. -/
theorem c2_order : runGS c2g = some
    [([(("a"), Value.int 1), (("b"), Value.int 10)], 0),
     ([(("a"), Value.int 2), (("b"), Value.int 10)], 1),
     ([(("a"), Value.int 1), (("b"), Value.int 20)], 2),
     ([(("a"), Value.int 2), (("b"), Value.int 20)], 3)] := rfl

/-- C3 counterexample: for the zero-axis grid (base parameters `{x: 0}`) the
exposed count `len` is 1, but starting enumeration does not succeed:
`__iter__` evaluates `list(self.grid.keys())[0]` on an empty key list and
raises `IndexError`, so no enumeration step can return the base parameters. -/
theorem c3_counterexample :
    gsLen { parameters := [(("x"), Value.int 0)], grid := [] } = 1 ∧
    iterStart { parameters := [(("x"), Value.int 0)], grid := [] } = none :=
  ⟨rfl, rfl⟩

/-- C3 amended: for every zero-axis `GridSearch` the exposed count is 1, but
`__iter__` raises `IndexError` instead of starting an enumeration, so no step
(in particular no step returning the base parameters) ever occurs. -/
theorem c3_zero_axis_amended (p : Dict) :
    gsLen { parameters := p, grid := [] } = 1 ∧
    iterStart { parameters := p, grid := [] } = none :=
  ⟨rfl, rfl⟩

/-- C1 counterexample: on the zero-axis `GridSearch` the exposed count is 1,
yet full enumeration cannot produce a single pair: `__iter__` raises
`IndexError`, so the claim's "full enumeration produces `len` items" fails. -/
theorem c1_counterexample :
    gsLen { parameters := [], grid := [] } = 1 ∧
    ¬ ∃ s, iterStart { parameters := [], grid := [] } = some s :=
  ⟨rfl, fun h => nomatch h.choose_spec⟩

/-! ### Helper lemmas about indexing, digits and the odometer -/

lemma pyGet_nil {α : Type} (i : Int) : pyGet ([] : List α) i = none := by
  have h : ¬ (0 ≤ pyIndex i (List.length ([] : List α)) ∧
      pyIndex i (List.length ([] : List α)) < ((List.length ([] : List α) : Nat) : Int)) := by
    simp only [pyIndex, List.length_nil, Nat.cast_zero, Int.add_zero]
    split <;> omega
  unfold pyGet
  exact dif_neg h

lemma pyGet_some {α : Type} (l : List α) (i : Int) (h0 : 0 ≤ i)
    (hlt : i < (l.length : Int)) : ∃ v, pyGet l i = some v ∧ v ∈ l := by
  have hpi : pyIndex i l.length = i := if_neg (by omega)
  have h : 0 ≤ pyIndex i l.length ∧ pyIndex i l.length < (l.length : Int) := by
    rw [hpi]; exact ⟨h0, hlt⟩
  unfold pyGet
  rw [dif_pos h]
  exact ⟨_, rfl, List.get_mem ..⟩

lemma pyGet_mem {α : Type} {l : List α} {i : Int} {v : α}
    (h : pyGet l i = some v) : v ∈ l := by
  unfold pyGet at h
  split at h
  · have hv := Option.some_inj.mp h
    rw [← hv]
    exact List.get_mem ..
  · exact absurd h (by simp)

lemma natProd_pos : ∀ (Ls : List Nat), (∀ len ∈ Ls, 0 < len) → 0 < Ls.prod
  | [], _ => by simp
  | len :: lens, h => by
      rw [List.prod_cons]
      exact Nat.mul_pos (h len (List.mem_cons_self ..))
        (natProd_pos lens (fun l hl => h l (List.mem_cons_of_mem _ hl)))

lemma natProd_eq_zero : ∀ (Ls : List Nat), 0 ∈ Ls → Ls.prod = 0
  | [], h => absurd h (by simp)
  | len :: lens, h => by
      rw [List.prod_cons]
      rcases List.mem_cons.mp h with h0 | h0
      · cases h0
        simp
      · rw [natProd_eq_zero lens h0]
        simp

lemma digits_zero : ∀ (Ls : List Nat), digits Ls 0 = List.replicate Ls.length 0
  | [] => rfl
  | len :: lens => by
      simp [digits, Nat.zero_mod, Nat.zero_div, List.replicate_succ, digits_zero lens]

lemma digits_forall₂ : ∀ (grid : List (String × List Value)) (m : Nat),
    (∀ ax ∈ grid, 0 < ax.2.length) →
    List.Forall₂ (fun (i : Int) (ax : String × List Value) => 0 ≤ i ∧ i < (ax.2.length : Int))
      (digits (grid.map (fun ax => ax.2.length)) m) grid
  | [], _, _ => List.Forall₂.nil
  | ax :: rest, m, h => by
      simp only [List.map_cons, digits]
      refine List.Forall₂.cons ⟨by positivity, ?_⟩
        (digits_forall₂ rest (m / ax.2.length) (fun a ha => h a (List.mem_cons_of_mem _ ha)))
      exact_mod_cast Nat.mod_lt m (h ax (List.mem_cons_self ..))

lemma bump_digits_of_lt : ∀ (Ls : List Nat) (m : Nat), (∀ len ∈ Ls, 0 < len) →
    m + 1 < Ls.prod → bump (digits Ls m) Ls = (digits Ls (m + 1), false)
  | [], m, _, h => by simp [List.prod_nil] at h
  | len :: lens, m, hpos, h => by
      have hlen : 0 < len := hpos len (List.mem_cons_self ..)
      have hlens : ∀ l ∈ lens, 0 < l := fun l hl => hpos l (List.mem_cons_of_mem _ hl)
      have hmod := Nat.mod_add_div m len
      rw [List.prod_cons] at h
      by_cases hr : m % len + 1 = len
      · have hmul : len * (m / len + 1) = len * (m / len) + len := by ring
        have hm1 : m + 1 = len * (m / len + 1) := by omega
        have hdiv : m / len + 1 < lens.prod := by
          by_contra hc
          push_neg at hc
          have := Nat.mul_le_mul_left len hc
          omega
        have hmod1 : (m + 1) % len = 0 := by
          rw [hm1]; exact Nat.mul_mod_right ..
        have hdiv1 : (m + 1) / len = m / len + 1 := by
          rw [hm1]; exact Nat.mul_div_cancel_left _ hlen
        simp only [digits, bump]
        rw [if_pos (by exact_mod_cast hr)]
        rw [bump_digits_of_lt lens (m / len) hlens hdiv]
        rw [hmod1, hdiv1]
        simp
      · have hrlt : m % len + 1 < len := by
          have := Nat.mod_lt m hlen
          omega
        have he : m + 1 = (m % len + 1) + len * (m / len) := by omega
        have hmod1 : (m + 1) % len = m % len + 1 := by
          rw [he, Nat.add_mul_mod_self_left, Nat.mod_eq_of_lt hrlt]
        have hdiv1 : (m + 1) / len = m / len := by
          rw [he, Nat.add_mul_div_left _ _ hlen, Nat.div_eq_of_lt hrlt, Nat.zero_add]
        simp only [digits, bump]
        rw [if_neg (by intro hc; exact hr (by exact_mod_cast hc))]
        rw [hmod1, hdiv1]
        norm_cast

lemma bump_digits_of_eq : ∀ (Ls : List Nat) (m : Nat), (∀ len ∈ Ls, 0 < len) →
    m + 1 = Ls.prod → bump (digits Ls m) Ls = (digits Ls 0, true)
  | [], m, _, h => by
      simp only [List.prod_nil] at h
      have hm : m = 0 := by omega
      subst hm
      rfl
  | len :: lens, m, hpos, h => by
      have hlen : 0 < len := hpos len (List.mem_cons_self ..)
      have hlens : ∀ l ∈ lens, 0 < l := fun l hl => hpos l (List.mem_cons_of_mem _ hl)
      have hmod := Nat.mod_add_div m len
      rw [List.prod_cons] at h
      have hr : m % len + 1 = len := by
        by_contra hc
        have hrlt : m % len + 1 < len := by
          have := Nat.mod_lt m hlen
          omega
        have he : m + 1 = (m % len + 1) + len * (m / len) := by omega
        have h1 : (m + 1) % len = m % len + 1 := by
          rw [he, Nat.add_mul_mod_self_left, Nat.mod_eq_of_lt hrlt]
        have h2 : (m + 1) % len = 0 := by
          rw [h]; exact Nat.mul_mod_right ..
        omega
      have hmul : len * (m / len + 1) = len * (m / len) + len := by ring
      have hm1 : m + 1 = len * (m / len + 1) := by omega
      have hq : m / len + 1 = lens.prod := by
        refine Nat.eq_of_mul_eq_mul_left hlen ?_
        omega
      simp only [digits, bump]
      rw [if_pos (by exact_mod_cast hr)]
      rw [bump_digits_of_eq lens (m / len) hlens hq]
      simp

/-! ### One-step characterizations of `step` on explicit states -/

lemma step_stop_lit (p : Dict) (grid : List (String × List Value)) (i : Int)
    (idx idx2 : List Int)
    (hb : bump idx (grid.map (fun ax => ax.2.length)) = (idx2, true)) :
    step { parameters := p, grid := grid, i := i, idx := idx } =
      StepResult.stop { parameters := p, grid := grid, i := i, idx := idx2 } := by
  simp [step, hb]

lemma step_yield_lit (p : Dict) (grid : List (String × List Value)) (i : Int)
    (idx idx2 : List Int) (r : Dict)
    (hb : bump idx (grid.map (fun ax => ax.2.length)) = (idx2, false))
    (ha : applyAxes p grid idx2 = ApplyResult.ok r) :
    step { parameters := p, grid := grid, i := i, idx := idx } =
      StepResult.yielded r (i + 1)
        { parameters := r, grid := grid, i := i + 1, idx := idx2 } := by
  simp [step, hb, ha]

lemma step_err_lit (p : Dict) (grid : List (String × List Value)) (i : Int)
    (idx idx2 : List Int) (q : Dict)
    (hb : bump idx (grid.map (fun ax => ax.2.length)) = (idx2, false))
    (ha : applyAxes p grid idx2 = ApplyResult.err q) :
    step { parameters := p, grid := grid, i := i, idx := idx } =
      StepResult.err { parameters := q, grid := grid, i := i, idx := idx2 } := by
  simp [step, hb, ha]

/-! ### The application loop succeeds on in-range indices, fails on an empty axis -/

lemma applyAxes_ok_of_inRange {grid : List (String × List Value)} {idx : List Int}
    (h : List.Forall₂ (fun (i : Int) (ax : String × List Value) =>
      0 ≤ i ∧ i < (ax.2.length : Int)) idx grid) :
    ∀ p : Dict, ∃ r, applyAxes p grid idx = ApplyResult.ok r := by
  induction h with
  | nil => exact fun p => ⟨p, rfl⟩
  | @cons i b is bs hd tl ih =>
      intro p
      obtain ⟨k, cands⟩ := b
      obtain ⟨v, hv, hvmem⟩ := pyGet_some cands i hd.1 hd.2
      show ∃ r, applyAxes p ((k, cands) :: bs) (i :: is) = ApplyResult.ok r
      cases v with
      | dict es =>
          have : applyAxes p ((k, cands) :: bs) (i :: is) =
              applyAxes (es.foldl (fun d e => dset d e.1 e.2) p) bs is := by
            simp only [applyAxes, hv]
          rw [this]
          exact ih _
      | int n =>
          have : applyAxes p ((k, cands) :: bs) (i :: is) =
              applyAxes (dset p k (Value.int n)) bs is := by
            simp only [applyAxes, hv]
          rw [this]
          exact ih _
      | str t =>
          have : applyAxes p ((k, cands) :: bs) (i :: is) =
              applyAxes (dset p k (Value.str t)) bs is := by
            simp only [applyAxes, hv]
          rw [this]
          exact ih _
      | vlist l =>
          have : applyAxes p ((k, cands) :: bs) (i :: is) =
              applyAxes (dset p k (Value.vlist l)) bs is := by
            simp only [applyAxes, hv]
          rw [this]
          exact ih _

lemma applyAxes_err_of_empty : ∀ (grid : List (String × List Value)) (p : Dict)
    (idx : List Int), (∃ ax ∈ grid, ax.2 = []) →
    ∃ q, applyAxes p grid idx = ApplyResult.err q
  | [], _, _, h => absurd h (by simp)
  | (k, cands) :: rest, p, [], _ => ⟨p, rfl⟩
  | (k, cands) :: rest, p, i :: is, h => by
      rcases h with ⟨ax, hmem, hax⟩
      rcases List.mem_cons.mp hmem with heq | hmem2
      · have hc : cands = [] := by
          have h2 := congrArg Prod.snd heq
          simp at h2
          exact (hax.symm.trans h2).symm
        subst hc
        exact ⟨p, by simp [applyAxes, pyGet_nil]⟩
      · cases hv : pyGet cands i with
        | none => exact ⟨p, by simp [applyAxes, hv]⟩
        | some v =>
            cases v with
            | dict es =>
                obtain ⟨q, hq⟩ := applyAxes_err_of_empty rest
                  (es.foldl (fun d e => dset d e.1 e.2) p) is ⟨ax, hmem2, hax⟩
                exact ⟨q, by simp only [applyAxes, hv]; exact hq⟩
            | int n =>
                obtain ⟨q, hq⟩ := applyAxes_err_of_empty rest
                  (dset p k (Value.int n)) is ⟨ax, hmem2, hax⟩
                exact ⟨q, by simp only [applyAxes, hv]; exact hq⟩
            | str t =>
                obtain ⟨q, hq⟩ := applyAxes_err_of_empty rest
                  (dset p k (Value.str t)) is ⟨ax, hmem2, hax⟩
                exact ⟨q, by simp only [applyAxes, hv]; exact hq⟩
            | vlist l =>
                obtain ⟨q, hq⟩ := applyAxes_err_of_empty rest
                  (dset p k (Value.vlist l)) is ⟨ax, hmem2, hax⟩
                exact ⟨q, by simp only [applyAxes, hv]; exact hq⟩

/-! ### Counting the pairs a full enumeration yields -/

lemma runFuel_count_from : ∀ (fuel : Nat) (grid : List (String × List Value))
    (m : Nat) (p : Dict) (i : Int), (∀ ax ∈ grid, 0 < ax.2.length) →
    (grid.map (fun ax => ax.2.length)).prod ≤ m + fuel →
    m < (grid.map (fun ax => ax.2.length)).prod →
    ((runFuel fuel { parameters := p, grid := grid, i := i,
                     idx := digits (grid.map (fun ax => ax.2.length)) m }).1).length
      = (grid.map (fun ax => ax.2.length)).prod - 1 - m
  | 0, grid, m, p, i, hpos, hfuel, hm => absurd hfuel (by omega)
  | fuel + 1, grid, m, p, i, hpos, hfuel, hm => by
      have hposL : ∀ len ∈ grid.map (fun ax => ax.2.length), 0 < len := by
        intro len hlen
        obtain ⟨ax, hax, hax2⟩ := List.mem_map.mp hlen
        rw [← hax2]
        exact hpos ax hax
      rcases Nat.lt_or_ge (m + 1) (grid.map (fun ax => ax.2.length)).prod with hlt | hge
      · have hb := bump_digits_of_lt (grid.map (fun ax => ax.2.length)) m hposL hlt
        obtain ⟨r, hr⟩ := applyAxes_ok_of_inRange (digits_forall₂ grid (m + 1) hpos) p
        have hstep := step_yield_lit p grid i
          (digits (grid.map (fun ax => ax.2.length)) m)
          (digits (grid.map (fun ax => ax.2.length)) (m + 1)) r hb hr
        simp only [runFuel]
        rw [hstep]
        simp only [List.length_cons]
        rw [runFuel_count_from fuel grid (m + 1) r (i + 1) hpos (by omega) hlt]
        omega
      · have heq : m + 1 = (grid.map (fun ax => ax.2.length)).prod := by omega
        have hb := bump_digits_of_eq (grid.map (fun ax => ax.2.length)) m hposL heq
        have hstep := step_stop_lit p grid i
          (digits (grid.map (fun ax => ax.2.length)) m)
          (digits (grid.map (fun ax => ax.2.length)) 0) hb
        simp only [runFuel]
        rw [hstep]
        simp only [List.length_nil]
        omega

lemma runFuel_start (ax0 : String × List Value) (rest : List (String × List Value))
    (hpos : ∀ ax ∈ ax0 :: rest, 0 < ax.2.length) (p : Dict) (i : Int) (fuel : Nat)
    (hfuel : ((ax0 :: rest).map (fun ax => ax.2.length)).prod ≤ fuel) :
    ((runFuel (fuel + 1) { parameters := p, grid := ax0 :: rest, i := i,
                           idx := (-1 : Int) :: List.replicate rest.length 0 }).1).length
      = ((ax0 :: rest).map (fun ax => ax.2.length)).prod := by
  have hposL : ∀ len ∈ (ax0 :: rest).map (fun ax => ax.2.length), 0 < len := by
    intro len hlen
    obtain ⟨ax, hax, hax2⟩ := List.mem_map.mp hlen
    rw [← hax2]
    exact hpos ax hax
  have hP : 0 < ((ax0 :: rest).map (fun ax => ax.2.length)).prod :=
    natProd_pos _ hposL
  have hlen0 : 0 < ax0.2.length := hpos ax0 (List.mem_cons_self ..)
  have hb : bump ((-1 : Int) :: List.replicate rest.length 0)
      ((ax0 :: rest).map (fun ax => ax.2.length)) =
      (digits ((ax0 :: rest).map (fun ax => ax.2.length)) 0, false) := by
    simp only [List.map_cons, bump, digits]
    rw [if_neg (by intro hc; omega)]
    rw [Nat.zero_div, Nat.zero_mod, digits_zero]
    norm_num [List.length_map]
  obtain ⟨r, hr⟩ := applyAxes_ok_of_inRange (digits_forall₂ (ax0 :: rest) 0 hpos) p
  have hstep := step_yield_lit p (ax0 :: rest) i
    ((-1 : Int) :: List.replicate rest.length 0)
    (digits ((ax0 :: rest).map (fun ax => ax.2.length)) 0) r hb hr
  simp only [runFuel]
  rw [hstep]
  simp only [List.length_cons]
  rw [runFuel_count_from fuel (ax0 :: rest) 0 r (i + 1) hpos (by omega) hP]
  omega

lemma runFuel_zero_axis (fuel : Nat) (grid : List (String × List Value)) (p : Dict)
    (i : Int) (idx : List Int) (hex : ∃ ax ∈ grid, ax.2 = []) :
    ((runFuel fuel { parameters := p, grid := grid, i := i, idx := idx }).1).length
      = 0 := by
  cases fuel with
  | zero => rfl
  | succ fuel =>
      rcases hb : bump idx (grid.map (fun ax => ax.2.length)) with ⟨idx2, t⟩
      cases t with
      | true =>
          simp only [runFuel]
          rw [step_stop_lit p grid i idx idx2 hb]
          rfl
      | false =>
          obtain ⟨q, hq⟩ := applyAxes_err_of_empty grid p idx2 hex
          simp only [runFuel]
          rw [step_err_lit p grid i idx idx2 q hb hq]
          rfl

/-- C1 amended: for every `GridSearch` with at least one axis, the exposed
count `len` equals the product of the axes' candidate-list lengths, and the
enumeration started by `__iter__` yields exactly that many
`(parameters, position)` pairs before it stops yielding (by `StopIteration`
when every axis is nonempty; via the `IndexError` raised on an empty
candidate list otherwise, in which case the count is 0).  The original claim
quantified over every `GridSpec` including the zero-axis one, where it
fails (see `c1_counterexample`). -/
theorem c1_count_eq_len (g : GridSearch) (hne : g.grid ≠ []) :
    gsLen g = (g.grid.map (fun ax => ax.2.length)).prod ∧
    ∃ s0, iterStart g = some s0 ∧
      ((runFuel (gsLen g + 1) s0).1).length = gsLen g := by
  refine ⟨rfl, ?_⟩
  obtain ⟨p, gr⟩ := g
  cases gr with
  | nil => exact absurd rfl hne
  | cons ax0 rest =>
      refine ⟨_, rfl, ?_⟩
      by_cases hall : ∀ ax ∈ ax0 :: rest, 0 < ax.2.length
      · exact runFuel_start ax0 rest hall p (-1)
          (gsLen { parameters := p, grid := ax0 :: rest }) (le_refl _)
      · push_neg at hall
        obtain ⟨ax, haxmem, hlen⟩ := hall
        have hax2 : ax.2 = [] := List.length_eq_zero.mp (by omega)
        have h0 : gsLen { parameters := p, grid := ax0 :: rest } = 0 :=
          natProd_eq_zero _ (List.mem_map.mpr ⟨ax, haxmem, by rw [hax2]; rfl⟩)
        rw [h0]
        exact runFuel_zero_axis 1 (ax0 :: rest) p (-1) _ ⟨ax, haxmem, hax2⟩

/-- Witness for `c1_count_eq_len` on the one-axis grid `{a: [1, 2]}`. -/
theorem c1_count_eq_len_witness :
    gsLen { parameters := [], grid := [(("a"), [Value.int 1, Value.int 2])] } =
      ([(("a"), [Value.int 1, Value.int 2])].map (fun ax => ax.2.length)).prod ∧
    ∃ s0, iterStart { parameters := [], grid := [(("a"), [Value.int 1, Value.int 2])] } = some s0 ∧
      ((runFuel (gsLen { parameters := [], grid := [(("a"), [Value.int 1, Value.int 2])] } + 1) s0).1).length
        = gsLen { parameters := [], grid := [(("a"), [Value.int 1, Value.int 2])] } :=
  c1_count_eq_len _ (List.cons_ne_nil _ _)

/-! ### Dict lookup after assignment sequences -/

lemma dget_dset_cases : ∀ (d : Dict) (k k2 : String) (v : Value),
    dget (dset d k2 v) k = if k2 = k then some v else dget d k
  | [], k, k2, v => rfl
  | e :: rest, k, k2, v => by
      by_cases h2 : e.1 = k2
      · by_cases hk : k2 = k
        · simp [dset, dget, h2, hk]
        · have hek : ¬ e.1 = k := by rw [h2]; exact hk
          simp [dset, dget, h2, hk, hek]
      · by_cases hek : e.1 = k
        · have hk : ¬ k2 = k := by
            intro hc
            exact h2 (by rw [hek, hc])
          have hkk2 : ¬ k = k2 := fun hc => hk hc.symm
          simp [dset, dget, h2, hek, hk, hkk2]
        · simp [dset, dget, h2, hek, dget_dset_cases rest k k2 v]

lemma dcontains_dset_mono {d : Dict} {k : String} (k2 : String) (v : Value)
    (h : dcontains d k = true) : dcontains (dset d k2 v) k = true := by
  unfold dcontains at h ⊢
  rw [dget_dset_cases]
  by_cases hk : k2 = k
  · simp [hk]
  · simp [hk, h]

lemma foldl_dset_contains : ∀ (ws : List (String × Value)) (p : Dict) (k : String),
    dcontains p k = true →
    dcontains (ws.foldl (fun d e => dset d e.1 e.2) p) k = true
  | [], _, _, h => h
  | w :: rest, p, k, h =>
      foldl_dset_contains rest (dset p w.1 w.2) k (dcontains_dset_mono w.1 w.2 h)

lemma dget_foldl_dset : ∀ (ws : List (String × Value)) (p : Dict) (k : String),
    dget (ws.foldl (fun d e => dset d e.1 e.2) p) k =
      (match lastWrite ws k with
       | some v => some v
       | none => dget p k)
  | [], p, k => by simp [lastWrite]
  | w :: rest, p, k => by
      simp only [List.foldl_cons]
      rw [dget_foldl_dset rest (dset p w.1 w.2) k]
      simp only [lastWrite]
      cases hlw : lastWrite rest k with
      | some v => rfl
      | none =>
          simp only []
          rw [dget_dset_cases]
          by_cases hk : w.1 = k
          · simp [hk]
          · simp [hk]

lemma lastWrite_isSome_of_mem : ∀ (ws : List (String × Value)) (e : String × Value),
    e ∈ ws → (lastWrite ws e.1).isSome = true
  | [], e, h => absurd h (by simp)
  | w :: rest, e, h => by
      rcases List.mem_cons.mp h with heq | h2
      · subst heq
        cases hlw : lastWrite rest e.1 with
        | some v => simp [lastWrite, hlw]
        | none => simp [lastWrite, hlw]
      · have hs := lastWrite_isSome_of_mem rest e h2
        cases hlw : lastWrite rest e.1 with
        | some v => simp [lastWrite, hlw]
        | none => rw [hlw] at hs; simp at hs

lemma lastWrite_append : ∀ (ws1 ws2 : List (String × Value)) (k : String),
    lastWrite (ws1 ++ ws2) k =
      (match lastWrite ws2 k with
       | some v => some v
       | none => lastWrite ws1 k)
  | [], ws2, k => by
      simp only [List.nil_append]
      cases lastWrite ws2 k <;> rfl
  | w :: rest, ws2, k => by
      have hstep : lastWrite ((w :: rest) ++ ws2) k =
          (match lastWrite (rest ++ ws2) k with
           | some v => some v
           | none => if w.1 = k then some w.2 else none) := rfl
      rw [hstep, lastWrite_append rest ws2 k]
      simp only [lastWrite]
      cases lastWrite ws2 k <;> cases lastWrite rest k <;> rfl

lemma lastWrite_none_of_keys : ∀ (ws : List (String × Value)) (k : String),
    (∀ e ∈ ws, ¬ e.1 = k) → lastWrite ws k = none
  | [], _, _ => rfl
  | w :: rest, k, h => by
      simp only [lastWrite]
      rw [lastWrite_none_of_keys rest k (fun e he => h e (List.mem_cons_of_mem _ he))]
      simp [h w (List.mem_cons_self ..)]

/-! ### The parameter dict after one application loop is the fold of its writes -/

lemma applyAxes_writes : ∀ (grid : List (String × List Value)) (idx : List Int) (p r : Dict),
    applyAxes p grid idx = ApplyResult.ok r →
    r = (stepWrites grid idx).foldl (fun d e => dset d e.1 e.2) p
  | [], idx, p, r, h => by
      cases h
      rfl
  | (k, cands) :: rest, [], p, r, h => by cases h
  | (k, cands) :: rest, i :: is, p, r, h => by
      cases hv : pyGet cands i with
      | none =>
          simp only [applyAxes, hv] at h
          exact ApplyResult.noConfusion h
      | some v =>
          cases v with
          | dict es =>
              simp only [applyAxes, hv] at h
              rw [applyAxes_writes rest is _ r h]
              simp only [stepWrites, hv]
              rw [List.foldl_append]
          | int n =>
              simp only [applyAxes, hv] at h
              rw [applyAxes_writes rest is _ r h]
              simp only [stepWrites, hv]
              rw [List.foldl_append]
              simp [List.foldl_cons, List.foldl_nil]
          | str t =>
              simp only [applyAxes, hv] at h
              rw [applyAxes_writes rest is _ r h]
              simp only [stepWrites, hv]
              rw [List.foldl_append]
              simp [List.foldl_cons, List.foldl_nil]
          | vlist l =>
              simp only [applyAxes, hv] at h
              rw [applyAxes_writes rest is _ r h]
              simp only [stepWrites, hv]
              rw [List.foldl_append]
              simp [List.foldl_cons, List.foldl_nil]

lemma mem_stepWrites_of_axis : ∀ (grid : List (String × List Value)) (idx : List Int)
    (j : Nat) (k : String) (cands : List Value) (i0 : Int)
    (es : List (String × Value)) (e : String × Value),
    grid.get? j = some (k, cands) → idx.get? j = some i0 →
    pyGet cands i0 = some (Value.dict es) → e ∈ es → e ∈ stepWrites grid idx
  | [], _, j, _, _, _, _, _, hg, _, _, _ => by simp at hg
  | (k1, c1) :: rest, [], j, k, cands, i0, es, e, hg, hi, hv, he => by simp at hi
  | (k1, c1) :: rest, i :: is, 0, k, cands, i0, es, e, hg, hi, hv, he => by
      simp only [List.get?_cons_zero, Option.some_inj] at hg hi
      have hk1 : k1 = k := congrArg Prod.fst hg
      have hc1 : c1 = cands := congrArg Prod.snd hg
      subst hk1
      subst hc1
      subst hi
      simp only [stepWrites, hv]
      exact List.mem_append_left _ he
  | (k1, c1) :: rest, i :: is, j + 1, k, cands, i0, es, e, hg, hi, hv, he => by
      simp only [List.get?_cons_succ] at hg hi
      have hmem := mem_stepWrites_of_axis rest is j k cands i0 es e hg hi hv he
      simp only [stepWrites]
      exact List.mem_append_right _ hmem

/-! ### Inversions of one enumeration step -/

lemma step_yielded_inv (s : IterState) (p2 : Dict) (i2 : Int) (s2 : IterState)
    (h : step s = StepResult.yielded p2 i2 s2) :
    ∃ idx2, bump s.idx (s.grid.map (fun ax => ax.2.length)) = (idx2, false) ∧
      applyAxes s.parameters s.grid idx2 = ApplyResult.ok p2 ∧
      s2 = { parameters := p2, grid := s.grid, i := s.i + 1, idx := idx2 } ∧
      i2 = s.i + 1 := by
  obtain ⟨sp, sg, si, sidx⟩ := s
  rcases hb : bump sidx (sg.map (fun ax => ax.2.length)) with ⟨idx2, t⟩
  cases t with
  | true =>
      rw [step_stop_lit sp sg si sidx idx2 hb] at h
      exact StepResult.noConfusion h
  | false =>
      rcases ha : applyAxes sp sg idx2 with r | q
      · rw [step_yield_lit sp sg si sidx idx2 r hb ha] at h
        simp only [StepResult.yielded.injEq] at h
        obtain ⟨h1, h2, h3⟩ := h
        subst h1
        subst h2
        exact ⟨idx2, hb, ha, h3.symm, rfl⟩
      · rw [step_err_lit sp sg si sidx idx2 q hb ha] at h
        exact StepResult.noConfusion h

lemma iterStart_inv (g : GridSearch) (s0 : IterState) (h : iterStart g = some s0) :
    s0.parameters = g.parameters ∧ s0.grid = g.grid ∧ s0.i = -1 := by
  unfold iterStart at h
  rcases hg : g.grid with _ | ⟨ax0, rest⟩
  · rw [hg] at h
    simp at h
  · rw [hg] at h
    simp only [Option.some_inj] at h
    subst h
    exact ⟨rfl, rfl, rfl⟩

/-- C4: in one enumeration step, a dict-valued (group) candidate assigns
every one of its keys into the parameter dict (each such key is present in
the yielded dict), and whenever several axes (or several entries) write the
same key in one step, the yielded dict holds the value of the last write in
axis declaration order — i.e. the later-declared axis wins.
`stepWrites s.grid s2.idx` is the ordered assignment sequence of the step and
`lastWrite` selects the latest write to a key. -/
theorem c4_group_assignment (s : IterState) (p2 : Dict) (i2 : Int) (s2 : IterState)
    (hstep : step s = StepResult.yielded p2 i2 s2) :
    (∀ j k cands i0 es, s.grid.get? j = some (k, cands) → s2.idx.get? j = some i0 →
        pyGet cands i0 = some (Value.dict es) →
        ∀ e ∈ es, (dget p2 e.1).isSome = true) ∧
    (∀ k v, lastWrite (stepWrites s.grid s2.idx) k = some v → dget p2 k = some v) := by
  obtain ⟨idx2, hb, ha, hs2, hi2⟩ := step_yielded_inv s p2 i2 s2 hstep
  have hidx : s2.idx = idx2 := by rw [hs2]
  have hwr := applyAxes_writes s.grid idx2 s.parameters p2 ha
  constructor
  · intro j k cands i0 es hg hi hv e he
    have hmem : e ∈ stepWrites s.grid idx2 :=
      mem_stepWrites_of_axis s.grid idx2 j k cands i0 es e hg (hidx ▸ hi) hv he
    have hsome := lastWrite_isSome_of_mem (stepWrites s.grid idx2) e hmem
    rw [hwr, dget_foldl_dset]
    cases hlw : lastWrite (stepWrites s.grid idx2) e.1 with
    | some v => rfl
    | none => rw [hlw] at hsome; simp at hsome
  · intro k v hlw
    rw [hidx] at hlw
    rw [hwr, dget_foldl_dset, hlw]

/-- Witness for `c4_group_assignment`: base `{x: 0}`, grid with group axis
`g: [{x: 1, y: 2}]` followed by group axis `h: [{x: 5}]`; in the single step
both groups write `x` and the later-declared axis `h` wins, so the yielded
dict holds `x = 5`. -/
theorem c4_group_assignment_witness :
    dget [(("x"), Value.int 5), (("y"), Value.int 2)] ("x") = some (Value.int 5) :=
  (c4_group_assignment
    { parameters := [(("x"), Value.int 0)],
      grid := [(("g"), [Value.dict [(("x"), Value.int 1), (("y"), Value.int 2)]]),
               (("h"), [Value.dict [(("x"), Value.int 5)]])],
      i := -1, idx := [-1, 0] }
    [(("x"), Value.int 5), (("y"), Value.int 2)] 0
    { parameters := [(("x"), Value.int 5), (("y"), Value.int 2)],
      grid := [(("g"), [Value.dict [(("x"), Value.int 1), (("y"), Value.int 2)]]),
               (("h"), [Value.dict [(("x"), Value.int 5)]])],
      i := 0, idx := [0, 0] }
    rfl).2 ("x") (Value.int 5) rfl

/-! ### Base keys are never removed (C6) -/

lemma applyAxes_contains (grid : List (String × List Value)) (idx : List Int)
    (p r : Dict) (k : String) (h : applyAxes p grid idx = ApplyResult.ok r)
    (hc : dcontains p k = true) : dcontains r k = true := by
  rw [applyAxes_writes grid idx p r h]
  exact foldl_dset_contains _ p k hc

lemma runFuel_contains : ∀ (fuel : Nat) (s : IterState) (k : String),
    dcontains s.parameters k = true →
    ∀ pr ∈ (runFuel fuel s).1, dcontains pr.1 k = true
  | 0, _, _, _, _, hpr => absurd hpr (by simp [runFuel])
  | fuel + 1, s, k, h, pr, hpr => by
      rcases hstep : step s with ⟨p2, i2, s2⟩ | s2 | s2
      · obtain ⟨idx2, hb, ha, hs2, hi2⟩ := step_yielded_inv s p2 i2 s2 hstep
        have hp2 : dcontains p2 k = true :=
          applyAxes_contains s.grid idx2 s.parameters p2 k ha h
        have hrun : (runFuel (fuel + 1) s).1 = (p2, i2) :: (runFuel fuel s2).1 := by
          simp only [runFuel, hstep]
        rw [hrun] at hpr
        rcases List.mem_cons.mp hpr with heq | hmem
        · rw [heq]
          exact hp2
        · refine runFuel_contains fuel s2 k ?_ pr hmem
          rw [hs2]
          exact hp2
      · have hrun : (runFuel (fuel + 1) s).1 = [] := by simp only [runFuel, hstep]
        rw [hrun] at hpr
        exact absurd hpr (by simp)
      · have hrun : (runFuel (fuel + 1) s).1 = [] := by simp only [runFuel, hstep]
        rw [hrun] at hpr
        exact absurd hpr (by simp)

/-- C6: every key present in the base parameter dict when enumeration starts
is still present in the parameter dict yielded by every enumeration step
(steps update values and may add keys, but never remove one). -/
theorem c6_base_keys_persist (g : GridSearch) (s0 : IterState) (fuel : Nat)
    (pr : Dict × Int) (k : String) (hs : iterStart g = some s0)
    (hmem : pr ∈ (runFuel fuel s0).1) (hk : dcontains g.parameters k = true) :
    dcontains pr.1 k = true := by
  obtain ⟨hp, hg, hi⟩ := iterStart_inv g s0 hs
  exact runFuel_contains fuel s0 k (by rw [hp]; exact hk) pr hmem

/-- Witness for `c6_base_keys_persist`: base `{x: 0}`, grid `{a: [1]}`; the
base key `x` is still present in the one yielded dict. -/
theorem c6_base_keys_persist_witness :
    dcontains [(("x"), Value.int 0), (("a"), Value.int 1)] ("x") = true :=
  c6_base_keys_persist
    { parameters := [(("x"), Value.int 0)], grid := [(("a"), [Value.int 1])] }
    { parameters := [(("x"), Value.int 0)], grid := [(("a"), [Value.int 1])],
      i := -1, idx := [-1] }
    2 ([(("x"), Value.int 0), (("a"), Value.int 1)], 0) ("x") rfl
    (List.mem_singleton.mpr rfl) rfl

/-! ### Keys the grid never writes keep their base values (C9) -/

lemma lastWrite_none_of_not_touches : ∀ (grid : List (String × List Value))
    (idx : List Int) (k : String), touches grid k = false →
    lastWrite (stepWrites grid idx) k = none
  | [], _, _, _ => rfl
  | (k1, c1) :: rest, [], k, _ => rfl
  | (k1, c1) :: rest, i :: is, k, h => by
      unfold touches at h
      rw [List.any_cons] at h
      rw [Bool.or_eq_false_iff] at h
      obtain ⟨hhead, htail⟩ := h
      rw [Bool.or_eq_false_iff] at hhead
      obtain ⟨hk1, hc1⟩ := hhead
      have htailw : lastWrite (stepWrites rest is) k = none :=
        lastWrite_none_of_not_touches rest is k htail
      simp only [stepWrites]
      rw [lastWrite_append, htailw]
      have hk1ne : ¬ k1 = k := by
        intro hc
        rw [hc] at hk1
        simp at hk1
      cases hv : pyGet c1 i with
      | none => rfl
      | some v =>
          cases v with
          | dict es =>
              have hes : (es.any (fun e => e.1 == k)) = false := by
                have hmem := pyGet_mem hv
                have hany := List.any_eq_false.mp hc1 _ hmem
                exact Bool.eq_false_iff.mpr hany
              refine lastWrite_none_of_keys es k ?_
              intro e he hc
              have := List.any_eq_false.mp hes e he
              rw [hc] at this
              simp at this
          | int n => exact lastWrite_none_of_keys _ k (by simpa using hk1ne)
          | str t => exact lastWrite_none_of_keys _ k (by simpa using hk1ne)
          | vlist l => exact lastWrite_none_of_keys _ k (by simpa using hk1ne)

lemma runFuel_untouched : ∀ (fuel : Nat) (s : IterState) (k : String),
    touches s.grid k = false →
    ∀ pr ∈ (runFuel fuel s).1, dget pr.1 k = dget s.parameters k
  | 0, _, _, _, _, hpr => absurd hpr (by simp [runFuel])
  | fuel + 1, s, k, h, pr, hpr => by
      rcases hstep : step s with ⟨p2, i2, s2⟩ | s2 | s2
      · obtain ⟨idx2, hb, ha, hs2, hi2⟩ := step_yielded_inv s p2 i2 s2 hstep
        have hg : dget p2 k = dget s.parameters k := by
          rw [applyAxes_writes s.grid idx2 s.parameters p2 ha, dget_foldl_dset,
              lastWrite_none_of_not_touches s.grid idx2 k h]
        have hrun : (runFuel (fuel + 1) s).1 = (p2, i2) :: (runFuel fuel s2).1 := by
          simp only [runFuel, hstep]
        rw [hrun] at hpr
        rcases List.mem_cons.mp hpr with heq | hmem
        · rw [heq]
          exact hg
        · have htail := runFuel_untouched fuel s2 k (by rw [hs2]; exact h) pr hmem
          rw [htail, hs2]
          exact hg
      · have hrun : (runFuel (fuel + 1) s).1 = [] := by simp only [runFuel, hstep]
        rw [hrun] at hpr
        exact absurd hpr (by simp)
      · have hrun : (runFuel (fuel + 1) s).1 = [] := by simp only [runFuel, hstep]
        rw [hrun] at hpr
        exact absurd hpr (by simp)

/-- C9: a base parameter key that is neither an axis key of the grid nor a
key inside any dict-valued (group) candidate of any axis keeps its original
base value in the dict yielded by every enumeration step. -/
theorem c9_untouched_keys (g : GridSearch) (k : String) (s0 : IterState)
    (fuel : Nat) (pr : Dict × Int) (ht : touches g.grid k = false)
    (hs : iterStart g = some s0) (hmem : pr ∈ (runFuel fuel s0).1) :
    dget pr.1 k = dget g.parameters k := by
  obtain ⟨hp, hg, hi⟩ := iterStart_inv g s0 hs
  rw [runFuel_untouched fuel s0 k (by rw [hg]; exact ht) pr hmem, hp]

/-- Witness for `c9_untouched_keys`: base `{x: 7}`, grid `{a: [1]}`; the key
`x` is untouched by the grid and keeps the value 7 in the yielded dict. -/
theorem c9_untouched_keys_witness :
    dget [(("x"), Value.int 7), (("a"), Value.int 1)] ("x") =
      dget [(("x"), Value.int 7)] ("x") :=
  c9_untouched_keys
    { parameters := [(("x"), Value.int 7)], grid := [(("a"), [Value.int 1])] }
    ("x")
    { parameters := [(("x"), Value.int 7)], grid := [(("a"), [Value.int 1])],
      i := -1, idx := [-1] }
    2 ([(("x"), Value.int 7), (("a"), Value.int 1)], 0) rfl rfl
    (List.mem_singleton.mpr rfl)

/-! ### Determinism and restart semantics (C5) -/

lemma iterStart_idx_inv (g : GridSearch) (s0 : IterState) (h : iterStart g = some s0) :
    s0.idx = (-1 : Int) :: List.replicate (g.grid.length - 1) 0 := by
  unfold iterStart at h
  rcases hg : g.grid with _ | ⟨ax0, rest⟩
  · rw [hg] at h
    simp at h
  · rw [hg] at h
    simp only [Option.some_inj] at h
    subst h
    rfl

/-- C5 amended: (a) full enumeration is a pure function of the base
parameters and the grid, so two freshly constructed enumerators with
identical inputs produce identical ordered sequences of
`(parameters, position)` pairs; (b) re-invoking `__iter__` on an
already-started enumerator rebuilds `__i` (back to `-1`) and `__idx` (back to
the initial all-zero / first-axis `-1` dict) from scratch — it does not
resume — but it keeps the current mutated parameter dict and the grid.
Because the parameter dict is not reset, a restarted enumeration's snapshots
can differ from a fresh one's (see `c5_counterexample`). -/
theorem c5_determinism_and_restart (g1 g2 : GridSearch) (s s2 : IterState) :
    (g1.parameters = g2.parameters → g1.grid = g2.grid → runGS g1 = runGS g2) ∧
    (restartIter s = some s2 →
      s2.parameters = s.parameters ∧ s2.grid = s.grid ∧ s2.i = -1 ∧
      s2.idx = (-1 : Int) :: List.replicate (s.grid.length - 1) 0) := by
  constructor
  · intro hp hg
    unfold runGS iterStart gsLen
    rw [hp, hg]
  · intro h
    unfold restartIter at h
    obtain ⟨hp, hg, hi⟩ := iterStart_inv _ s2 h
    have hidx := iterStart_idx_inv _ s2 h
    exact ⟨hp, hg, hi, hidx⟩

/-- Witness for `c5_determinism_and_restart`: restarting an already-started
one-axis iterator (`__i = 5`, `__idx = {a: 7}`) yields a state with `__i`
and `__idx` reset to their initial values. -/
theorem c5_determinism_and_restart_witness :
    IterState.i { parameters := [(("x"), Value.int 1)], grid := [(("a"), [Value.int 1])],
                  i := -1, idx := [-1] } = -1 ∧
    IterState.idx { parameters := [(("x"), Value.int 1)], grid := [(("a"), [Value.int 1])],
                    i := -1, idx := [-1] } = [-1] := by
  have h := (c5_determinism_and_restart
    { parameters := [], grid := [] } { parameters := [], grid := [] }
    { parameters := [(("x"), Value.int 1)], grid := [(("a"), [Value.int 1])],
      i := 5, idx := [7] }
    { parameters := [(("x"), Value.int 1)], grid := [(("a"), [Value.int 1])],
      i := -1, idx := [-1] }).2 rfl
  exact ⟨h.2.2.1, h.2.2.2⟩

/-- C5 counterexample: with base `{x: 0}` and the single group axis
`g: [{x: 1}, {y: 2}]`, the fresh enumeration's snapshots are
`[{x: 1}, {x: 1, y: 2}]`, but after `StopIteration` the parameter dict still
holds `{x: 1, y: 2}`; re-invoking `__iter__` and enumerating again yields
`[{x: 1, y: 2}, {x: 1, y: 2}]` — a different sequence of snapshots, refuting
the claim that a restarted enumeration produces an identical sequence. -/
theorem c5_counterexample : c5freshSnaps ≠ c5restartSnaps := by
  intro h
  have h2 := congrArg (fun l => ((l.headD []).length)) h
  exact absurd h2 (by decide)

/-! ### Construction errors (C7, C8, C10) -/

lemma computeLengths_err : ∀ (d : Dict) (e : PyError),
    computeLengths d = Except.error e → e = PyError.typeError
  | [], e, h => by simp [computeLengths] at h
  | (k, v) :: rest, e, h => by
      simp only [computeLengths] at h
      cases hv : pyLen v with
      | none =>
          rw [hv] at h
          simp only [Except.error.injEq] at h
          exact h.symm
      | some n =>
          rw [hv] at h
          cases hr : computeLengths rest with
          | error e2 =>
              rw [hr] at h
              simp only [Except.error.injEq] at h
              exact h ▸ computeLengths_err rest e2 hr
          | ok l =>
              rw [hr] at h
              exact Except.noConfusion h

lemma loadConfigfile_err (env : Env) (path : String) (e : PyError)
    (h : loadConfigfile env path = Except.error e) : e = PyError.configFormat path := by
  unfold loadConfigfile at h
  split at h
  · exact Except.noConfusion h
  · split at h
    · exact Except.noConfusion h
    · simp only [Except.error.injEq] at h
      exact h.symm

lemma not_json_of_yaml (path : String) (hy : pyEndsWith path (".yaml") = true) :
    pyEndsWith path (".json") = false := by
  by_contra hc
  have hj : pyEndsWith path (".json") = true := by simpa using hc
  unfold pyEndsWith at hj hy
  rw [List.isSuffixOf_iff_suffix] at hj hy
  obtain ⟨t1, ht1⟩ := hj
  obtain ⟨t2, ht2⟩ := hy
  have hj5 : (String.data (".json")).length = 5 := rfl
  have hy5 : (String.data (".yaml")).length = 5 := rfl
  have e1 := congrArg List.length ht1
  have e2 := congrArg List.length ht2
  rw [List.length_append] at e1 e2
  rw [hj5] at e1
  rw [hy5] at e2
  have hlen : t1.length = t2.length := by omega
  have heq := List.append_inj_right (ht1.trans ht2.symm) hlen
  exact absurd heq (by decide)

lemma loadConfigfile_ok_of_goodExt (env : Env) (path : String)
    (h : goodExt path = true) : ∃ ps, loadConfigfile env path = Except.ok ps := by
  unfold loadConfigfile
  unfold goodExt at h
  rcases Bool.or_eq_true_iff.mp h with hj | hy
  · rw [if_pos hj]
    exact ⟨_, rfl⟩
  · rw [if_neg (by simp [not_json_of_yaml path hy]), if_pos hy]
    exact ⟨_, rfl⟩

lemma loadConfigfile_err_of_badExt (env : Env) (path : String)
    (h : goodExt path = false) :
    loadConfigfile env path = Except.error (PyError.configFormat path) := by
  unfold loadConfigfile
  unfold goodExt at h
  rw [Bool.or_eq_false_iff] at h
  rw [if_neg (by simp [h.1]), if_neg (by simp [h.2])]

lemma mkGridSearch_params_err (env : Env) (p g : Arg) (e : PyError)
    (hps : resolveParams env p g = Except.error e) :
    mkGridSearch env p g = Except.error e := by
  simp only [mkGridSearch, hps]

lemma mkGridSearch_params_ok_err_inv (env : Env) (p g : Arg) (ps : Dict) (e : PyError)
    (hps : resolveParams env p g = Except.ok ps)
    (h : mkGridSearch env p g = Except.error e) :
    (isOtherArg g = true ∧ e = PyError.unrecognizedSource (typeStr g)) ∨
    (∃ path2, g = Arg.str path2 ∧ e = PyError.configFormat path2 ∧
      loadConfigfile env path2 = Except.error e) ∨
    e = PyError.typeError := by
  cases g with
  | other t =>
      have hgr : resolveGrid env (Arg.other t) =
          Except.error (PyError.unrecognizedSource t) := rfl
      have h2 : mkGridSearch env p (Arg.other t) =
          Except.error (PyError.unrecognizedSource t) := by
        simp only [mkGridSearch, hps, hgr]
      rw [h2] at h
      simp only [Except.error.injEq] at h
      exact Or.inl ⟨rfl, h.symm⟩
  | dict d2 =>
      have hgr : resolveGrid env (Arg.dict d2) = Except.ok d2 := rfl
      cases hcl : computeLengths d2 with
      | error e2 =>
          have h2 : mkGridSearch env p (Arg.dict d2) = Except.error e2 := by
            simp only [mkGridSearch, hps, hgr, hcl]
          rw [h2] at h
          simp only [Except.error.injEq] at h
          exact Or.inr (Or.inr (h ▸ computeLengths_err d2 e2 hcl))
      | ok ls =>
          have h2 : mkGridSearch env p (Arg.dict d2) =
              Except.ok { parameters := ps, grid := d2, lengths := ls } := by
            simp only [mkGridSearch, hps, hgr, hcl]
          rw [h2] at h
          exact Except.noConfusion h
  | str path2 =>
      cases hlc : loadConfigfile env path2 with
      | error e2 =>
          have hgr : resolveGrid env (Arg.str path2) = Except.error e2 := hlc
          have h2 : mkGridSearch env p (Arg.str path2) = Except.error e2 := by
            simp only [mkGridSearch, hps, hgr]
          rw [h2] at h
          simp only [Except.error.injEq] at h
          subst h
          exact Or.inr (Or.inl ⟨path2, rfl, loadConfigfile_err env path2 e2 hlc, hlc⟩)
      | ok gd =>
          have hgr : resolveGrid env (Arg.str path2) = Except.ok gd := hlc
          cases hcl : computeLengths gd with
          | error e2 =>
              have h2 : mkGridSearch env p (Arg.str path2) = Except.error e2 := by
                simp only [mkGridSearch, hps, hgr, hcl]
              rw [h2] at h
              simp only [Except.error.injEq] at h
              exact Or.inr (Or.inr (h ▸ computeLengths_err gd e2 hcl))
          | ok ls =>
              have h2 : mkGridSearch env p (Arg.str path2) =
                  Except.ok { parameters := ps, grid := gd, lengths := ls } := by
                simp only [mkGridSearch, hps, hgr, hcl]
              rw [h2] at h
              exact Except.noConfusion h

/-- C7 amended: construction raises the unrecognized-source error
(`RuntimeError` with the `Unrecognized grid type` message) if and only if the
`parameters` argument is neither a mapping nor a string, or the `parameters`
argument resolves (it is a mapping, or a string with a recognized extension)
and the `grid` argument is neither a mapping nor a string.  The error is
synchronous: the `Except.error` result carries no `GridSearchRaw`, so nothing
partial is constructed.  The original claim's "if and only if" fails when
`parameters` is a bad-extension string and `grid` is neither a mapping nor a
string, where the format error is raised instead (see `c7_counterexample`). -/
theorem c7_unrecognized_source_iff (env : Env) (p g : Arg) :
    (∃ t, mkGridSearch env p g = Except.error (PyError.unrecognizedSource t)) ↔
      (isOtherArg p = true ∨ (resolves p = true ∧ isOtherArg g = true)) := by
  constructor
  · rintro ⟨t, ht⟩
    cases hp : isOtherArg p with
    | true => exact Or.inl rfl
    | false =>
        right
        cases hg : isOtherArg g with
        | false =>
            exfalso
            cases p with
            | other t2 => simp [isOtherArg] at hp
            | dict d =>
                rcases mkGridSearch_params_ok_err_inv env (Arg.dict d) g d
                    (PyError.unrecognizedSource t) rfl ht with
                  ⟨hgo, he⟩ | ⟨path2, hgstr, he, hlc2⟩ | he
                · rw [hgo] at hg
                  exact Bool.noConfusion hg
                · exact PyError.noConfusion he
                · exact PyError.noConfusion he
            | str path =>
                cases hlc : loadConfigfile env path with
                | error e =>
                    have h2 := mkGridSearch_params_err env (Arg.str path) g e hlc
                    rw [h2] at ht
                    simp only [Except.error.injEq] at ht
                    have he := loadConfigfile_err env path e hlc
                    rw [he] at ht
                    exact PyError.noConfusion ht
                | ok ps =>
                    rcases mkGridSearch_params_ok_err_inv env (Arg.str path) g ps
                        (PyError.unrecognizedSource t) hlc ht with
                      ⟨hgo, he⟩ | ⟨path2, hgstr, he, hlc2⟩ | he
                    · rw [hgo] at hg
                      exact Bool.noConfusion hg
                    · exact PyError.noConfusion he
                    · exact PyError.noConfusion he
        | true =>
            refine ⟨?_, rfl⟩
            cases p with
            | other t2 => simp [isOtherArg] at hp
            | dict d => rfl
            | str path =>
                show goodExt path = true
                cases hge : goodExt path with
                | true => rfl
                | false =>
                    exfalso
                    have hlc := loadConfigfile_err_of_badExt env path hge
                    have h2 := mkGridSearch_params_err env (Arg.str path) g
                      (PyError.configFormat path) hlc
                    rw [h2] at ht
                    simp only [Except.error.injEq] at ht
                    exact PyError.noConfusion ht
  · rintro (h | ⟨h1, h2⟩)
    · cases p with
      | other t => exact ⟨typeStr g, rfl⟩
      | dict d => simp [isOtherArg] at h
      | str path => simp [isOtherArg] at h
    · cases g with
      | dict d2 => simp [isOtherArg] at h2
      | str path2 => simp [isOtherArg] at h2
      | other t =>
          cases p with
          | other t2 => simp [resolves] at h1
          | dict d =>
              refine ⟨t, ?_⟩
              have hps : resolveParams env (Arg.dict d) (Arg.other t) = Except.ok d := rfl
              have hgr : resolveGrid env (Arg.other t) =
                  Except.error (PyError.unrecognizedSource t) := rfl
              simp only [mkGridSearch, hps, hgr]
          | str path =>
              obtain ⟨ps, hok⟩ := loadConfigfile_ok_of_goodExt env path h1
              refine ⟨t, ?_⟩
              have hps : resolveParams env (Arg.str path) (Arg.other t) =
                  Except.ok ps := hok
              have hgr : resolveGrid env (Arg.other t) =
                  Except.error (PyError.unrecognizedSource t) := rfl
              simp only [mkGridSearch, hps, hgr]

/-- Witness for `c7_unrecognized_source_iff`: a non-mapping, non-string
`parameters` argument makes construction fail with the unrecognized-source
error. -/
theorem c7_unrecognized_source_iff_witness :
    ∃ t, mkGridSearch env0 (Arg.other ("<class int>")) (Arg.dict []) =
      Except.error (PyError.unrecognizedSource t) :=
  (c7_unrecognized_source_iff env0 (Arg.other ("<class int>")) (Arg.dict [])).mpr
    (Or.inl rfl)

/-- C7 counterexample: `parameters = "c.txt"` (a string with an unrecognized
extension) and `grid` of a non-mapping, non-string type.  The grid argument
is neither a mapping nor a string, yet construction raises the config-format
error for the parameters path, not the unrecognized-source error — refuting
the claim's "if and only if". -/
theorem c7_counterexample :
    mkGridSearch env0 (Arg.str ("c.txt")) (Arg.other ("<class int>")) =
      Except.error (PyError.configFormat ("c.txt")) ∧
    ¬ ∃ t, mkGridSearch env0 (Arg.str ("c.txt")) (Arg.other ("<class int>")) =
        Except.error (PyError.unrecognizedSource t) := by
  refine ⟨rfl, ?_⟩
  rintro ⟨t, ht⟩
  rw [show mkGridSearch env0 (Arg.str ("c.txt")) (Arg.other ("<class int>")) =
      Except.error (PyError.configFormat ("c.txt")) from rfl] at ht
  simp only [Except.error.injEq] at ht
  exact PyError.noConfusion ht

/-- C8: for a string config-file path, loading raises the config-format
error (`RuntimeError` with the `Unknown config file type` message) if and
only if the path ends with neither `.json` nor `.yaml`; a `.json` path is
parsed by the JSON parser after stripping `//`-style line comments, and a
`.yaml` path is parsed by the YAML parser; and the same iff holds through
construction, both when the path is the `parameters` argument (any grid) and
when it is the `grid` argument (with a mapping `parameters`). -/
theorem c8_config_format (env : Env) (path : String) (g : Arg) (d : Dict) :
    (loadConfigfile env path = Except.error (PyError.configFormat path) ↔
      goodExt path = false) ∧
    (pyEndsWith path (".json") = true →
      loadConfigfile env path = Except.ok (env.jsonParse (stripLineComments (env.fs path)))) ∧
    (pyEndsWith path (".yaml") = true →
      loadConfigfile env path = Except.ok (env.yamlParse (env.fs path))) ∧
    (mkGridSearch env (Arg.str path) g = Except.error (PyError.configFormat path) ↔
      goodExt path = false) ∧
    (mkGridSearch env (Arg.dict d) (Arg.str path) =
        Except.error (PyError.configFormat path) ↔ goodExt path = false) := by
  refine ⟨⟨?_, ?_⟩, ?_, ?_, ⟨?_, ?_⟩, ⟨?_, ?_⟩⟩
  · intro hl
    cases hge : goodExt path with
    | false => rfl
    | true =>
        obtain ⟨ps, hok⟩ := loadConfigfile_ok_of_goodExt env path hge
        rw [hok] at hl
        exact Except.noConfusion hl
  · intro hge
    exact loadConfigfile_err_of_badExt env path hge
  · intro hj
    unfold loadConfigfile
    rw [if_pos hj]
  · intro hy
    unfold loadConfigfile
    rw [if_neg (by simp [not_json_of_yaml path hy]), if_pos hy]
  · intro h
    cases hge : goodExt path with
    | false => rfl
    | true =>
        exfalso
        obtain ⟨ps, hok⟩ := loadConfigfile_ok_of_goodExt env path hge
        rcases mkGridSearch_params_ok_err_inv env (Arg.str path) g ps
            (PyError.configFormat path) hok h with
          ⟨hgo, he⟩ | ⟨path2, hgstr, he, hlc2⟩ | he
        · exact PyError.noConfusion he
        · have hpp : path = path2 := by
            simp only [PyError.configFormat.injEq] at he
            exact he
          subst hpp
          rw [hok] at hlc2
          exact Except.noConfusion hlc2
        · exact PyError.noConfusion he
  · intro hge
    exact mkGridSearch_params_err env (Arg.str path) g _
      (loadConfigfile_err_of_badExt env path hge)
  · intro h
    cases hge : goodExt path with
    | false => rfl
    | true =>
        exfalso
        obtain ⟨gd, hok⟩ := loadConfigfile_ok_of_goodExt env path hge
        rcases mkGridSearch_params_ok_err_inv env (Arg.dict d) (Arg.str path) d
            (PyError.configFormat path) rfl h with
          ⟨hgo, he⟩ | ⟨path2, hgstr, he, hlc2⟩ | he
        · exact PyError.noConfusion he
        · have hpp : path = path2 := by
            simp only [Arg.str.injEq] at hgstr
            exact hgstr
          subst hpp
          rw [hok] at hlc2
          exact Except.noConfusion hlc2
        · exact PyError.noConfusion he
  · intro hge
    have hps : resolveParams env (Arg.dict d) (Arg.str path) = Except.ok d := rfl
    have hgr : resolveGrid env (Arg.str path) =
        Except.error (PyError.configFormat path) :=
      loadConfigfile_err_of_badExt env path hge
    simp only [mkGridSearch, hps, hgr]

/-- Witness for `c8_config_format`: a `.json` path loads as JSON after
comment stripping. -/
theorem c8_config_format_witness :
    loadConfigfile env0 ("a.json") =
      Except.ok (env0.jsonParse (stripLineComments (env0.fs ("a.json")))) :=
  (c8_config_format env0 ("a.json") (Arg.dict []) []).2.1 (by decide)

/-- C10: when the `parameters` argument is neither a mapping nor a string,
the error raised at construction is built from the type of the `grid`
argument — the message reads `Unrecognized grid type: ` followed by
`str(type(grid))` — not from the type of the offending `parameters`
argument. -/
theorem c10_message_uses_grid_type (env : Env) (t : String) (g : Arg) :
    mkGridSearch env (Arg.other t) g =
      Except.error (PyError.unrecognizedSource (typeStr g)) ∧
    (PyError.unrecognizedSource (typeStr g)).message =
      ("Unrecognized grid type: ") ++ typeStr g :=
  ⟨rfl, rfl⟩
